import Mathlib

/-!
Verification of the KickSight conversational-analytics front end.

We give a shallow embedding of the client-side core: the JSON salvage
parser (`parseJsonContent`, utils/json.ts), the response classifier
(utils/typeGuards.ts and the `renderMessage` dispatch), the streaming
session reducer (`hooks/useChat.ts`), the embed cache / display
controller (`getOrCreateIframe`, `showIframe`, `handleOpenChart`,
`hideAllIframes`), conversation deletion (`handleDeleteConversation`)
and the embed URL validator (`isValidUrl`).

JavaScript runtime values are modelled by the inductive type `Value`;
`undefined` is a distinct constructor because `typeof undefined` in JS
is not `"object"`.  Wall-clock derived `id` and `timestamp` fields of
messages are omitted: no property below depends on them.
-/

namespace KickSight

/-- A JavaScript runtime value, as far as the client core inspects one.
Numbers are modelled as integers (no property below involves fractional
values). -/
inductive Value where
  | str (s : String)
  | num (n : Int)
  | bool (b : Bool)
  | null
  | undef
  | obj (fields : List (String × Value))
  | arr (elems : List Value)

/-- JS truthiness: `undefined`, `null`, `false`, `0` and `""` are falsy;
objects and arrays are always truthy. -/
def truthy : Value → Bool
  | .str s => !(s == "")
  | .num n => !(n == 0)
  | .bool b => b
  | .null => false
  | .undef => false
  | .obj _ => true
  | .arr _ => true

/-- JS `typeof v === "object"` — true for objects, arrays and `null`. -/
def typeofIsObject : Value → Bool
  | .obj _ => true
  | .arr _ => true
  | .null => true
  | _ => false

/-- JS `v !== null && typeof v === "object"` — the guard prefix shared by all
three classifier predicates in utils/typeGuards.ts. -/
def isNonNullObject : Value → Bool
  | .obj _ => true
  | .arr _ => true
  | _ => false

/-- JS `Object.keys(v)`: own enumerable keys — field names of an object,
index strings of an array. -/
def jsKeys : Value → List String
  | .obj fs => fs.map (·.1)
  | .arr es => (List.range es.length).map (fun n => toString n)
  | _ => []

/-- The JS `in` operator restricted to own keys (`"k" in v`). -/
def hasField (v : Value) (k : String) : Bool :=
  (jsKeys v).contains k

/-- Property read `v.k` for a string key (named properties of arrays and
primitives read as absent). -/
def getField : Value → String → Option Value
  | .obj fs, k => fs.lookup k
  | _, _ => none

/-! ### Response classifier (utils/typeGuards.ts) -/

/-- Predicate `isSupervisorAgentResponse` (utils/typeGuards.ts): a non-null object
without a `type` field, not a single-field `message` object, carrying at
least one of the composite agent-result markers. -/
def isSupervisorAgentResponse (v : Value) : Bool :=
  isNonNullObject v &&
  !(hasField v "type") &&
  !(hasField v "message" && (jsKeys v).length == 1) &&
  (hasField v "query_id" || hasField v "query" || hasField v "chart_url" ||
   hasField v "explanation" || hasField v "visualization_analysis_result")

/-- Predicate `isQuickSightIFrameResponse` (utils/typeGuards.ts): a non-null object
whose `type` field equals `"quicksight_iframe"` and which has a `url`
field. -/
def isQuickSightIFrameResponse (v : Value) : Bool :=
  isNonNullObject v &&
  hasField v "type" &&
  (match getField v "type" with
   | some (.str t) => t == "quicksight_iframe"
   | _ => false) &&
  hasField v "url"

/-- Predicate `isError` (utils/typeGuards.ts): a non-null object with exactly one
key, named `message`. -/
def isError (v : Value) : Bool :=
  isNonNullObject v &&
  hasField v "message" &&
  (jsKeys v).length == 1

/-! ### JSON salvage parser (utils/json.ts)

`parseJsonContent` tries, in order, `JSON.parse`, `JSON5.parse` and
`jsonrepair` followed by `JSON.parse`.  The first two are external
libraries; we model them with one recursive-descent parser carrying a
`lenient` flag.  Modelled from the spec: with `lenient := false` it is
the strict `JSON.parse`; with `lenient := true` it is the "lenient parse
that tolerates trailing commas, comments, and unquoted keys" (the JSON5
library), which additionally accepts single-quoted strings.  Model
limitations (irrelevant to every claim below): numbers are integers and
`\u` escapes are unsupported. -/

/-- JSON whitespace. -/
def isJsonWs (c : Char) : Bool :=
  c == ' ' || c == '\t' || c == '\n' || c == '\r'

/-- Drop the rest of a `//` line comment. -/
def dropLineComment (cs : List Char) : List Char :=
  cs.dropWhile (fun c => !(c == '\n'))

/-- Drop up to and including the closing froms of a block comment. -/
def dropBlockComment : List Char → List Char
  | [] => []
  | '*' :: '/' :: r => r
  | _ :: r => dropBlockComment r

/-- Skip whitespace; in lenient mode also skip `//` and block comments. -/
def skipWsFuel (lenient : Bool) : Nat → List Char → List Char
  | 0, cs => cs
  | fuel + 1, cs =>
    match cs with
    | [] => []
    | c :: rest =>
      if isJsonWs c then skipWsFuel lenient fuel rest
      else if lenient then
        match cs with
        | '/' :: '/' :: r => skipWsFuel lenient fuel (dropLineComment r)
        | '/' :: '*' :: r => skipWsFuel lenient fuel (dropBlockComment r)
        | _ => cs
      else cs

/-- Skip leading whitespace (and comments when lenient). -/
def skipAll (lenient : Bool) (cs : List Char) : List Char :=
  skipWsFuel lenient cs.length cs

/-- Numeric value of a digit character. -/
def digitVal (c : Char) : Nat := c.toNat - '0'.toNat

/-- Accumulate a run of decimal digits. -/
def parseNatAux : Nat → List Char → Nat × List Char
  | acc, c :: rest =>
    if c.isDigit then parseNatAux (acc * 10 + digitVal c) rest else (acc, c :: rest)
  | acc, [] => (acc, [])

/-- Parse an optionally-negated integer literal. -/
def parseIntLit : List Char → Option (Int × List Char)
  | '-' :: rest =>
    match rest with
    | c :: _ =>
      if c.isDigit then
        let p := parseNatAux 0 rest
        some (-(p.1 : Int), p.2)
      else none
    | [] => none
  | c :: rest =>
    if c.isDigit then
      let p := parseNatAux 0 (c :: rest)
      some ((p.1 : Int), p.2)
    else none
  | [] => none

/-- One-character string escapes (`\u` is not modelled). -/
def escapeChar : Char → Option Char
  | '"' => some '"'
  | '\'' => some '\''
  | '\\' => some '\\'
  | '/' => some '/'
  | 'n' => some '\n'
  | 't' => some '\t'
  | 'r' => some '\r'
  | 'b' => some (Char.ofNat 8)
  | 'f' => some (Char.ofNat 12)
  | _ => none

/-- Parse a string body up to the closing quote `q`. -/
def parseStringBody (q : Char) : List Char → String → Option (String × List Char)
  | [], _ => none
  | '\\' :: e :: r2, acc =>
    match escapeChar e with
    | some d => parseStringBody q r2 (acc.push d)
    | none => none
  | ['\\'], _ => none
  | c :: rest, acc =>
    if c == q then some (acc, rest) else parseStringBody q rest (acc.push c)

/-- Identifier-continuation characters of an unquoted JSON5 key. -/
def isIdentChar (c : Char) : Bool :=
  c.isAlphanum || c == '_' || c == '$'

/-- Parse an unquoted identifier key (lenient mode only). -/
def parseIdent : List Char → Option (String × List Char)
  | c :: rest =>
    if c.isAlpha || c == '_' || c == '$' then
      some (String.mk ((c :: rest).takeWhile isIdentChar),
            (c :: rest).dropWhile isIdentChar)
    else none
  | [] => none

mutual

/-- Parse one value.  `fuel` strictly decreases on every nested parse. -/
def parseVal (lenient : Bool) : Nat → List Char → Option (Value × List Char)
  | 0, _ => none
  | fuel + 1, cs0 =>
    match skipAll lenient cs0 with
    | [] => none
    | '\x7b' :: rest => parseObjFields lenient fuel rest []
    | '[' :: rest => parseArrElems lenient fuel rest []
    | '"' :: rest =>
      (parseStringBody '"' rest "").map (fun p => (.str p.1, p.2))
    | '\'' :: rest =>
      if lenient then (parseStringBody '\'' rest "").map (fun p => (.str p.1, p.2))
      else none
    | 't' :: 'r' :: 'u' :: 'e' :: rest => some (.bool true, rest)
    | 'f' :: 'a' :: 'l' :: 's' :: 'e' :: rest => some (.bool false, rest)
    | 'n' :: 'u' :: 'l' :: 'l' :: rest => some (.null, rest)
    | cs => (parseIntLit cs).map (fun p => (.num p.1, p.2))

/-- Parse object members, entered right after `{` or after a comma. -/
def parseObjFields (lenient : Bool) :
    Nat → List Char → List (String × Value) → Option (Value × List Char)
  | 0, _, _ => none
  | fuel + 1, cs0, acc =>
    match skipAll lenient cs0 with
    | '\x7d' :: rest =>
      if acc.isEmpty || lenient then some (.obj acc.reverse, rest) else none
    | cs =>
      let key? : Option (String × List Char) :=
        match cs with
        | '"' :: r => parseStringBody '"' r ""
        | '\'' :: r => if lenient then parseStringBody '\'' r "" else none
        | _ => if lenient then parseIdent cs else none
      match key? with
      | none => none
      | some (k, afterKey) =>
        match skipAll lenient afterKey with
        | ':' :: afterColon =>
          match parseVal lenient fuel afterColon with
          | none => none
          | some (v, afterVal) =>
            match skipAll lenient afterVal with
            | ',' :: r => parseObjFields lenient fuel r ((k, v) :: acc)
            | '\x7d' :: r => some (.obj ((k, v) :: acc).reverse, r)
            | _ => none
        | _ => none

/-- Parse array elements, entered right after `[` or after a comma. -/
def parseArrElems (lenient : Bool) :
    Nat → List Char → List Value → Option (Value × List Char)
  | 0, _, _ => none
  | fuel + 1, cs0, acc =>
    match skipAll lenient cs0 with
    | ']' :: rest =>
      if acc.isEmpty || lenient then some (.arr acc.reverse, rest) else none
    | cs =>
      match parseVal lenient fuel cs with
      | none => none
      | some (v, afterVal) =>
        match skipAll lenient afterVal with
        | ',' :: r => parseArrElems lenient fuel r (v :: acc)
        | ']' :: r => some (.arr (v :: acc).reverse, r)
        | _ => none

end

/-- Run a full parse: the entire input must be consumed. -/
def runParse (lenient : Bool) (s : String) : Option Value :=
  match parseVal lenient (s.length + 1) s.data with
  | some (v, rest) => if (skipAll lenient rest).isEmpty then some v else none
  | none => none

/-- Strict attempt: `JSON.parse`. -/
def jsonStrictParse (s : String) : Option Value := runParse false s

/-- Lenient attempt: `JSON5.parse` (: trailing commas, comments, unquoted keys,
single quotes). -/
def json5Parse (s : String) : Option Value := runParse true s

/-- The whitespace set of the JS `String.prototype.trim`. -/
def isJsTrimWs (c : Char) : Bool :=
  c == ' ' || c == '\t' || c == '\n' || c == '\r' ||
  c == Char.ofNat 11 || c == Char.ofNat 12

/-- JS `s.trim()`. -/
def jsTrim (s : String) : String :=
  String.mk (((s.data.dropWhile isJsTrimWs).reverse.dropWhile isJsTrimWs).reverse)

/-- The regex test `/^[{\[]/.test(str)`. -/
def looksLikeJson (s : String) : Bool :=
  match s.data with
  | c :: _ => c == '\x7b' || c == '['
  | [] => false

/-- Function `parseJsonContent` (utils/json.ts).  The third attempt's repair step
(`jsonrepair`, an external library) is passed in as `repairFn`; its
output is handed to the strict parser, exactly as in the source.  On a
non-string input, a non-JSON-looking string, or failure of all three
attempts, the original input is returned unchanged. -/
def parseJsonContent (repairFn : String → Option String) (raw : Value) : Value :=
  match raw with
  | .str s =>
    let str := jsTrim s
    if !looksLikeJson str then .str s
    else
      match jsonStrictParse str with
      | some v => v
      | none =>
        match json5Parse str with
        | some v => v
        | none =>
          match repairFn str with
          | some repaired =>
            match jsonStrictParse repaired with
            | some v => v
            | none => .str s
          | none => .str s
  | v => v

/-! ### Message rendering (App component in src/unnamed/part_001)

`renderSupervisorResponse` composes the visible parts of a composite
agent result.  The `query` section evaluates `format(content.query)`
from the external `sql-formatter` library inline in JSX, with no
try/catch: we model the formatter as a function `fmt : String → Option
String` (`none` = the library throws) and a `none` result aborts the
whole render (`Except.error`), exactly as an exception thrown during
JSX evaluation would. -/

/-- The typed `SupervisorAgentResponse` payload (types/index.ts); all
fields optional. -/
structure SupervisorContent where
  query_id : Option String := none
  query : Option String := none
  explanation : Option String := none
  sample_analysis : Option String := none
  csv_url : Option String := none
  chart_url : Option String := none
  visualization_analysis_result : Option String := none

/-- JS truthiness of an optional string field (`undefined` and `""` are
falsy). -/
def strTruthy : Option String → Bool
  | none => false
  | some s => !(s == "")

/-- Function `renderSupervisorResponse`: the ordered list of rendered text blocks,
or an error when the SQL formatter throws on the `query` field.  Section
order follows the JSX: query id, explanation, formatted query, sample
analysis, CSV link, then visualization analysis and chart link. -/
def renderSupervisorResponse (fmt : String → Option String)
    (c : SupervisorContent) : Except String (List String) :=
  let hasDBResponse := strTruthy c.query_id || strTruthy c.query ||
    strTruthy c.explanation || strTruthy c.sample_analysis || strTruthy c.csv_url
  let hasQuickSightResponse := strTruthy c.chart_url ||
    strTruthy c.visualization_analysis_result
  if !hasDBResponse && !hasQuickSightResponse then
    .ok ["응답 데이터가 없습니다."]
  else
    let queryPart : Except String (List String) :=
      if hasDBResponse && strTruthy c.query then
        match fmt (c.query.getD "") with
        | some formatted => .ok [formatted]
        | none => .error "sql-formatter threw"
      else .ok []
    match queryPart with
    | .error e => .error e
    | .ok qp =>
      let dbParts :=
        if hasDBResponse then
          (if strTruthy c.query_id then ["쿼리 ID: " ++ c.query_id.getD ""] else []) ++
          (if strTruthy c.explanation then [c.explanation.getD ""] else []) ++
          qp ++
          (if strTruthy c.sample_analysis then [c.sample_analysis.getD ""] else []) ++
          (if strTruthy c.csv_url then ["CSV 데이터 다운로드"] else [])
        else []
      let qsParts :=
        (if strTruthy c.visualization_analysis_result
          then [c.visualization_analysis_result.getD ""] else []) ++
        (if strTruthy c.chart_url then ["QuickSight 차트 보기"] else [])
      .ok (dbParts ++ if hasQuickSightResponse then qsParts else [])

/-- One displayable variant produced by the bot branch of `renderMessage`. -/
inductive RenderedVariant where
  | supervisor (v : Value)
  | errorBox (v : Value)
  | textP (v : Value)

/-- The classification performed by the bot branch of `renderMessage`
(src/unnamed/part_001): an object is run through the two guards (each
rendering its block when it matches), a non-object is rendered as plain
text.  An object matching neither guard contributes nothing. -/
def renderMessageBody (content : Value) : List RenderedVariant :=
  if typeofIsObject content then
    (if isSupervisorAgentResponse content then [.supervisor content] else []) ++
    (if isError content then [.errorBox content] else [])
  else [.textP content]

/-! ### Streaming session reducer (src/frontend/src/hooks/useChat.ts)

`sendMessage` appends a user message and a `bot-reasoning` placeholder,
then consumes stream events through the `switch` passed to
`sendMessageStreamTrace`, and wraps the pending request in a `Promise`.
We model the promise's resolution as `ChatState.outcome` with the
first-settlement-wins semantics of JS promises (`settle`).  Wall-clock
`id`/`timestamp` fields are omitted. -/

/-- The `type` tag of a chat `Message` (types/index.ts). -/
inductive MsgType where
  | user
  | bot
  | botReasoning
deriving DecidableEq

/-- A chat message: role tag and content. -/
structure Message where
  type : MsgType
  content : Value

/-- The settlement of the `sendMessage` promise. -/
inductive Outcome where
  | success (response : Value) (responseType : String)
  | failure (message : String)

/-- A parsed server-sent event, with the fields the reducer reads. -/
structure StreamEvent where
  type : String
  message : Option String := none
  content : Option String := none
  agent : Option String := none
  display_name : Option String := none
  references_count : Option Int := none
  query_id : Option String := none
  chart_type : Option String := none
  result : Option Value := none
  success : Option Bool := none

/-- The client state touched by one in-flight request. -/
structure ChatState where
  messages : List Message
  currentReasoningStep : String
  isProcessing : Bool
  sessionId : Option String
  outcome : Option Outcome

/-- JS `x || d` for an optional string (`undefined` and `""` fall back). -/
def msgOr (o : Option String) (d : String) : String :=
  match o with
  | some m => if m == "" then d else m
  | none => d

/-- JS `s.split('\n')[0]`. -/
def firstLine (s : String) : String :=
  (s.splitOn "\n").headD ""

/-- The `agentIcons` record. -/
def agentIcons : List (String × String) :=
  [("Refinement Agent", "🔍"), ("DB Agent", "💾"), ("QuickSight Agent", "📊"),
   ("get_query_action_group", "🔎"), ("Knowledge Base", "📚"), ("default", "🤖")]

/-- The step-buffer update at the heart of `updateReasoningMessage`:
parse the existing content into nonblank lines, push the new step, keep
the most recent 5 (`steps.slice(-5)`). -/
def updateSteps (steps : List String) (newStep : String) : List String :=
  let pushed := steps.filter (fun s => !(jsTrim s == "")) ++ [newStep]
  pushed.drop (pushed.length - 5)

/-- The content-string update of `updateReasoningMessage`: split on
newlines, update the step buffer, re-join.  (On `content = ""` the
split-then-filter yields `[]`, matching the source's ternary.) -/
def updateContentLine (content : String) (newStep : String) : String :=
  String.intercalate "\n" (updateSteps (content.splitOn "\n") newStep)

/-- The `content as string` cast: the placeholder's content is always a
string; other values pass through untouched. -/
def updateContentValue (content : Value) (newStep : String) : Value :=
  match content with
  | .str s => .str (updateContentLine s newStep)
  | v => v

/-- Function `updateReasoningMessage`: find the first `bot-reasoning` message and
append the new step to its content; when there is none, return the
previous list unchanged. -/
def updateReasoningMessage (prev : List Message) (newStep : String) : List Message :=
  match prev.findIdx? (fun m => m.type == .botReasoning) with
  | none => prev
  | some i =>
    prev.mapIdx (fun j m =>
      if j = i then { m with content := updateContentValue m.content newStep } else m)

/-- Settle the pending promise: the first `resolve`/`reject` wins, later
settlements are no-ops. -/
def settle (s : ChatState) (o : Outcome) : ChatState :=
  if s.outcome.isSome then s else { s with outcome := some o }

/-- The event `switch` inside `sendMessage` (useChat.ts). -/
def handleStreamEvent (s : ChatState) (e : StreamEvent) : ChatState :=
  if e.type == "stream_start" then
    let startMessage := msgOr e.message "분석을 시작합니다..."
    { s with currentReasoningStep := startMessage,
             messages := updateReasoningMessage s.messages ("🚀 " ++ startMessage) }
  else if e.type == "reasoning" then
    match e.content with
    | some c =>
      if c == "" then s
      else
        let reasoningText := firstLine c
        { s with currentReasoningStep := reasoningText,
                 messages := updateReasoningMessage s.messages ("💭 " ++ reasoningText) }
    | none => s
  else if e.type == "agent_start" then
    let agentName := msgOr e.display_name (msgOr e.agent "에이전트")
    let agentMessage := msgOr e.message "호출 중..."
    let icon := (agentIcons.lookup agentName).getD "🤖"
    let fullMessage := icon ++ " " ++ agentName ++ " " ++ agentMessage
    { s with currentReasoningStep := fullMessage,
             messages := updateReasoningMessage s.messages fullMessage }
  else if e.type == "knowledge_base" then
    let kbMessage := msgOr e.message
      ("Knowledge Base에서 " ++ toString (e.references_count.getD 0) ++ "개의 참조를 찾았습니다.")
    let kbIcon := (agentIcons.lookup "Knowledge Base").getD ""
    { s with currentReasoningStep := kbIcon ++ " " ++ kbMessage,
             messages := updateReasoningMessage s.messages (kbIcon ++ " " ++ kbMessage) }
  else if e.type == "query_execution" then
    match e.query_id with
    | some q =>
      if q == "" then s
      else
        let queryMessage := "🔄 쿼리 실행 중... (ID: " ++ q ++ ")"
        { s with currentReasoningStep := queryMessage,
                 messages := updateReasoningMessage s.messages queryMessage }
    | none => s
  else if e.type == "visualization_created" then
    match e.chart_type with
    | some ct =>
      if ct == "" then s
      else
        let vizMessage := "📈 " ++ ct ++ " 시각화 생성 중..."
        { s with currentReasoningStep := vizMessage,
                 messages := updateReasoningMessage s.messages vizMessage }
    | none => s
  else if e.type == "error" then
    let errorMessage := "❌ 오류: " ++ msgOr e.message "알 수 없는 오류"
    { s with currentReasoningStep := errorMessage,
             messages := updateReasoningMessage s.messages errorMessage }
  else if e.type == "final_response" then
    if e.success.getD false then
      let displayContent :=
        match e.result with
        | some r =>
          match getField r "data" with
          | some d => if truthy d then d else r
          | none => r
        | none => .undef
      let botMessage : Message := { type := .bot, content := displayContent }
      let s := { s with
        messages := s.messages.filter (fun m => !(m.type == .botReasoning)) ++ [botMessage] }
      let s :=
        if s.sessionId.isNone then
          match e.result.bind (fun r => getField r "session_id") with
          | some (.str sid) => if sid == "" then s else { s with sessionId := some sid }
          | _ => s
        else s
      let responseType :=
        match e.result.bind (fun r => getField r "type") with
        | some (.str t) => if t == "" then "text" else t
        | _ => "text"
      settle s (.success displayContent responseType)
    else
      settle s (.failure "Analysis failed")
  else
    -- default: unrecognized discriminator, surfaced only when it carries a message
    if !(e.type == "") then
      match e.message with
      | some m =>
        if m == "" then s
        else { s with messages := updateReasoningMessage s.messages ("ℹ️ " ++ e.type ++ ": " ++ m) }
      | none => s
    else s

/-- How the transport's async sequence terminates. -/
inductive StreamEnd where
  | closed
  | threw (message : String)

/-- The state right after `sendMessage` appended the user message and
the empty `bot-reasoning` placeholder and opened the stream. -/
def initialChatState (prior : List Message) (priorSession : Option String)
    (userText : String) : ChatState :=
  { messages := prior ++
      [{ type := .user, content := .str userText },
       { type := .botReasoning, content := .str "" }],
    currentReasoningStep := "",
    isProcessing := true,
    sessionId := priorSession,
    outcome := none }

/-- The `.finally` block: reset `isProcessing` and the current step. -/
def finallyCleanup (s : ChatState) : ChatState :=
  { s with isProcessing := false, currentReasoningStep := "" }

/-- One whole in-flight request: fold the events through the switch,
then apply the `.catch` handler (which appends a streaming-error line
and rejects) when the transport threw, and the `.finally` block either
way.  A stream that merely closes runs no settlement code. -/
def runStream (prior : List Message) (priorSession : Option String) (userText : String)
    (events : List StreamEvent) (ending : StreamEnd) : ChatState :=
  let s1 := events.foldl handleStreamEvent (initialChatState prior priorSession userText)
  match ending with
  | .closed => finallyCleanup s1
  | .threw m =>
    let s2 := { s1 with
      messages := updateReasoningMessage s1.messages ("❌ 스트리밍 오류: " ++ m) }
    finallyCleanup (settle s2 (.failure m))

/-! ### Embed cache & display controller (src/unnamed/part_001)

The module-level `quickSightIframeCache` maps an embed URL to a live
iframe; `showIframe` hides every iframe in the container, lazily
creates the requested one, appends it and makes it visible.  The
browser's `new URL` parser is external: `isValidUrl` receives its
result (`none` = the constructor threw) and the parts of the host
application's own URL (`window.location.href`). -/

/-- The parts of a parsed absolute URL that `isValidUrl` inspects. -/
structure URLParts where
  protocol : String
  origin : String
  pathname : String
deriving DecidableEq

/-- Function `isValidUrl` yields `false` when the URL does not parse, when it matches
the host app's own origin and path, or when the scheme is neither http
nor https; total, never throws. -/
def isValidUrl (parsed : Option URLParts) (current : URLParts) : Bool :=
  match parsed with
  | none => false
  | some urlObj =>
    if urlObj.origin == current.origin && urlObj.pathname == current.pathname then false
    else urlObj.protocol == "http:" || urlObj.protocol == "https:"

/-- A cached iframe: its title, whether `style.display` is `'block'`,
and whether it has been appended to the container. -/
structure IframeEntry where
  title : String
  visible : Bool
  inContainer : Bool
deriving DecidableEq

/-- The embed-side state: the URL-keyed iframe cache, the current
visualization (`currentVisualization`/`showVisualization`), the iframe
manager's active URL, and the last notice shown. -/
structure EmbedState where
  cache : List (String × IframeEntry)
  currentVis : Option (String × String)
  showVis : Bool
  activeUrl : Option String
  notice : Option String
deriving DecidableEq

/-- Function `getOrCreateIframe`: consult the cache first; only on a miss create
a fresh hidden iframe and cache it. -/
def getOrCreateIframe (cache : List (String × IframeEntry)) (url title : String) :
    List (String × IframeEntry) :=
  if (cache.lookup url).isSome then cache
  else cache ++ [(url,
    { title := if title == "" then "QuickSight Dashboard" else title,
      visible := false, inContainer := false })]

/-- Hiding one container child: `child.style.display = 'none'` applies
to iframes appended to the container. -/
def hideEntry (kv : String × IframeEntry) : String × IframeEntry :=
  if kv.2.inContainer then (kv.1, { kv.2 with visible := false }) else kv

/-- Appending and displaying the iframe keyed `u`:
`containerRef.current.appendChild(iframe); iframe.style.display = 'block'`. -/
def showEntry (u : String) (kv : String × IframeEntry) : String × IframeEntry :=
  if kv.1 == u then (kv.1, { kv.2 with inContainer := true, visible := true }) else kv

/-- Function `showIframe`: hide every iframe in the container, get or create the
entry for `url`, append it if absent, display it, record it active. -/
def showIframe (s : EmbedState) (url title : String) : EmbedState :=
  if url == "" then s
  else
    let cache1 := s.cache.map hideEntry
    let cache2 := getOrCreateIframe cache1 url title
    let cache3 := cache2.map (showEntry url)
    { s with cache := cache3, activeUrl := some url }

/-- Function `hideAllIframes` plus the visualization panel closing
(`setShowVisualization(false)`). -/
def hideAllIframes (s : EmbedState) : EmbedState :=
  { s with
    cache := s.cache.map hideEntry,
    activeUrl := none,
    showVis := false }

/-- The already-open test of `handleOpenChart`:
`currentVisualization?.url === chartUrl && showVisualization`. -/
def alreadyOpen (s : EmbedState) (chartUrl : String) : Bool :=
  (match s.currentVis with
   | some uv => uv.1 == chartUrl
   | none => false) && s.showVis

/-- Function `handleOpenChart` followed by the `QuickSightVisualization` effect
that shows the iframe: validate, signal an already-open notice when the
same URL is already displayed, otherwise record the visualization and
show its iframe. -/
def handleOpenChart (s : EmbedState) (chartUrl : String) (title : Option String)
    (parsed : Option URLParts) (current : URLParts) : EmbedState :=
  if chartUrl == "" then s
  else if !(isValidUrl parsed current) then
    { s with notice := some "유효하지 않은 차트 URL입니다." }
  else
    let t := msgOr title "QuickSight Dashboard"
    if alreadyOpen s chartUrl then
      { s with notice := some "이미 동일한 차트가 열려있습니다." }
    else
      showIframe { s with currentVis := some (chartUrl, t), showVis := true } chartUrl t

/-- Number of cache entries keyed by `u`. -/
def countKey (cache : List (String × IframeEntry)) (u : String) : Nat :=
  (cache.filter (fun kv => kv.1 == u)).length

/-- Number of visible cached iframes. -/
def visibleCount (s : EmbedState) : Nat :=
  (s.cache.filter (fun kv => kv.2.visible)).length

/-- The embed controller's state invariant: cache keys are distinct (the
cache is a map), a visible iframe is in the container, and at most one
iframe is visible. -/
def embedInv (s : EmbedState) : Prop :=
  (s.cache.map (·.1)).Nodup ∧
  (∀ kv ∈ s.cache, kv.2.visible = true → kv.2.inContainer = true) ∧
  visibleCount s ≤ 1

/-- A user-driven action against the embed controller. -/
inductive EmbedOp where
  | showOp (url : String) (title : Option String) (parsed : Option URLParts)
  | hideOp

/-- The embed state at application start: an empty cache, nothing shown. -/
def initialEmbedState : EmbedState :=
  { cache := [], currentVis := none, showVis := false, activeUrl := none, notice := none }

/-- Run a sequence of show/hide actions. -/
def runEmbedOps (current : URLParts) (s : EmbedState) : List EmbedOp → EmbedState :=
  List.foldl (fun st op =>
    match op with
    | .showOp url title parsed => handleOpenChart st url title parsed current
    | .hideOp => hideAllIframes st) s

/-! ### Conversation deletion (src/unnamed/part_001) -/

/-- A conversation thread (wall-clock `createdAt` omitted). -/
structure Conversation where
  id : Int
  title : String
  sessionId : String
  messages : List Message

/-- The conversation-side application state touched by deletion. -/
structure ConversationsState where
  conversations : List Conversation
  activeConversation : Int
  sessionId : String
  messages : List Message
  notice : Option String

/-- Function `handleDeleteConversation`: refuse (with a notice) when at most one
thread remains; otherwise drop the thread and, if it was active, switch
to the first remaining one.  `none` models the crash JS would hit
reading `updatedConversations[0]` were the remainder empty. -/
def handleDeleteConversation (st : ConversationsState) (convId : Int) :
    Option ConversationsState :=
  if st.conversations.length ≤ 1 then
    some { st with notice := some "마지막 대화는 삭제할 수 없습니다" }
  else
    let updatedConversations := st.conversations.filter (fun c => !(c.id == convId))
    let st1 := { st with conversations := updatedConversations }
    if st.activeConversation == convId then
      match updatedConversations.head? with
      | some firstConv =>
        some { st1 with
          activeConversation := firstConv.id,
          sessionId := firstConv.sessionId,
          messages := firstConv.messages }
      | none => none
    else some st1

/-! ## Theorems -/

/-- C7: the embed URL validator returns true exactly when the argument
parses as an absolute URL whose scheme is http or https and which is not
identical in origin and path to the host application's own URL; it is a
total boolean function (never throws). -/
theorem isValidUrl_true_iff (parsed : Option URLParts) (current : URLParts) :
    isValidUrl parsed current = true ↔
      ∃ u, parsed = some u ∧
        (u.protocol = "http:" ∨ u.protocol = "https:") ∧
        ¬(u.origin = current.origin ∧ u.pathname = current.pathname) := by
  cases parsed with
  | none => simp [isValidUrl]
  | some u =>
    by_cases h1 : u.origin = current.origin
    · by_cases h2 : u.pathname = current.pathname
      · simp [isValidUrl, h1, h2]
      · simp [isValidUrl, h1, h2]
    · simp [isValidUrl, h1]

/-- A value accepted by `isError` has exactly the key list `["message"]`. -/
lemma keys_of_isError (v : Value) (h : isError v = true) : jsKeys v = ["message"] := by
  unfold isError at h
  simp only [Bool.and_eq_true] at h
  obtain ⟨⟨hnn, hmem⟩, hlen⟩ := h
  have hlen' : (jsKeys v).length = 1 := by simpa using hlen
  obtain ⟨a, ha⟩ : ∃ a, jsKeys v = [a] := by
    match h' : jsKeys v with
    | [a] => exact ⟨a, rfl⟩
    | [] => rw [h'] at hlen'; simp at hlen'
    | _ :: _ :: _ => rw [h'] at hlen'; simp at hlen'
  unfold hasField at hmem
  rw [ha] at hmem ⊢
  simp at hmem
  simp [hmem]

/-- An object with a `type` field is never a composite agent result. -/
lemma sup_false_of_hasType (v : Value) (h : hasField v "type" = true) :
    isSupervisorAgentResponse v = false := by
  unfold isSupervisorAgentResponse
  simp [h]

/-- A single-field error object is never a composite agent result. -/
lemma sup_false_of_isError (v : Value) (h : isError v = true) :
    isSupervisorAgentResponse v = false := by
  have hk := keys_of_isError v h
  have h1 : hasField v "message" = true := by simp [hasField, hk]
  have h2 : (jsKeys v).length = 1 := by simp [hk]
  unfold isSupervisorAgentResponse
  simp [h1, h2]

/-- Predicate `isQuickSightIFrameResponse` requires a `type` field. -/
lemma qs_hasType (v : Value) (h : isQuickSightIFrameResponse v = true) :
    hasField v "type" = true := by
  unfold isQuickSightIFrameResponse at h
  simp only [Bool.and_eq_true] at h
  exact h.1.1.2

/-- A single-field error object is never an embed pointer. -/
lemma qs_false_of_isError (v : Value) (h : isError v = true) :
    isQuickSightIFrameResponse v = false := by
  have hk := keys_of_isError v h
  have ht : hasField v "type" = false := by simp [hasField, hk]
  unfold isQuickSightIFrameResponse
  simp [ht]

/-- C4: on every non-null object the three classifier predicates are
mutually exclusive (at most one holds); an object whose only field is
`message` satisfies `isError` and not `isSupervisorAgentResponse`; and
an object with a `type` field is never classified as a composite agent
result. -/
theorem classifier_predicates_exclusive (v : Value) (hobj : isNonNullObject v = true) :
    ((isQuickSightIFrameResponse v).toNat + (isError v).toNat +
      (isSupervisorAgentResponse v).toNat ≤ 1) ∧
    (jsKeys v = ["message"] → isError v = true ∧ isSupervisorAgentResponse v = false) ∧
    (hasField v "type" = true → isSupervisorAgentResponse v = false) := by
  refine ⟨?_, ?_, fun ht => sup_false_of_hasType v ht⟩
  · cases hqs : isQuickSightIFrameResponse v with
    | true =>
      have hsup := sup_false_of_hasType v (qs_hasType v hqs)
      cases herr : isError v with
      | true => exact absurd hqs (by simp [qs_false_of_isError v herr])
      | false => simp [hsup]
    | false =>
      cases herr : isError v with
      | true => simp [sup_false_of_isError v herr]
      | false => cases hsup : isSupervisorAgentResponse v <;> simp
  · intro hk
    have herr : isError v = true := by
      unfold isError
      simp [hobj, hasField, hk]
    exact ⟨herr, sup_false_of_isError v herr⟩

/-- C4 witness: the single-field error object `{message: "boom"}`. -/
theorem classifier_predicates_exclusive_witness :
    isNonNullObject (Value.obj [("message", Value.str "boom")]) = true ∧
    (((isQuickSightIFrameResponse (Value.obj [("message", Value.str "boom")])).toNat +
       (isError (Value.obj [("message", Value.str "boom")])).toNat +
       (isSupervisorAgentResponse (Value.obj [("message", Value.str "boom")])).toNat ≤ 1) ∧
     (jsKeys (Value.obj [("message", Value.str "boom")]) = ["message"] →
       isError (Value.obj [("message", Value.str "boom")]) = true ∧
       isSupervisorAgentResponse (Value.obj [("message", Value.str "boom")]) = false) ∧
     (hasField (Value.obj [("message", Value.str "boom")]) "type" = true →
       isSupervisorAgentResponse (Value.obj [("message", Value.str "boom")]) = false)) :=
  ⟨by rfl, classifier_predicates_exclusive (Value.obj [("message", Value.str "boom")]) (by rfl)⟩

/-- C2 counterexample: the empty object matches neither guard, so the
bot branch of `renderMessage` produces no displayable variant at all —
not the Text fallback the claim asserts. -/
theorem renderMessage_empty_object_no_variant :
    renderMessageBody (Value.obj []) = [] := by rfl

/-- C2 (amended): the classification performed by `renderMessage` is
deterministic, total and mutually exclusive — every value yields at most
one variant, every non-object yields exactly the Text variant — but an
object matching neither the composite-result nor the single-field-error
guard (e.g. an object with zero recognized fields) yields no displayable
variant (an empty container) instead of a stringified Text fallback. -/
theorem renderMessage_classification (v : Value) :
    (renderMessageBody v).length ≤ 1 ∧
    (typeofIsObject v = false → renderMessageBody v = [.textP v]) ∧
    (renderMessageBody v = [] ↔
      typeofIsObject v = true ∧ isSupervisorAgentResponse v = false ∧
        isError v = false) := by
  unfold renderMessageBody
  cases hobj : typeofIsObject v with
  | false => simp
  | true =>
    cases herr : isError v with
    | true => simp [sup_false_of_isError v herr]
    | false => cases hsup : isSupervisorAgentResponse v <;> simp

/-- C2 witness: a plain string classifies as exactly the Text variant. -/
theorem renderMessage_classification_witness :
    (renderMessageBody (Value.str "hello")).length ≤ 1 ∧
    (typeofIsObject (Value.str "hello") = false →
      renderMessageBody (Value.str "hello") = [.textP (Value.str "hello")]) ∧
    (renderMessageBody (Value.str "hello") = [] ↔
      typeofIsObject (Value.str "hello") = true ∧
        isSupervisorAgentResponse (Value.str "hello") = false ∧
        isError (Value.str "hello") = false) :=
  renderMessage_classification (Value.str "hello")

/-- C3 counterexample: a composite result whose `query` field is present
while the SQL formatter fails.  `renderSupervisorResponse` evaluates
`format(content.query)` inline with no try/catch, so the failure aborts
the whole render — the raw query text is not shown. -/
theorem renderSupervisor_format_failure_blocks_display :
    renderSupervisorResponse (fun _ => none) { query := some "SELECT 1" } =
      .error "sql-formatter threw" := by rfl

/-- C3 (amended): whenever the composite result's `query` field is
present, the query text is rendered through the SQL-aware formatter
before display — the formatted text appears among the rendered parts
when the formatter succeeds — but when the formatter fails the failure
propagates and rendering aborts: there is no raw-text fallback. -/
theorem renderSupervisor_query_formatting (fmt : String → Option String)
    (c : SupervisorContent) (q : String) (hq : c.query = some q) (hne : q ≠ "") :
    (∀ f, fmt q = some f →
      ∃ parts, renderSupervisorResponse fmt c = .ok parts ∧ f ∈ parts) ∧
    (fmt q = none →
      renderSupervisorResponse fmt c = .error "sql-formatter threw") := by
  have htr : strTruthy c.query = true := by simp [strTruthy, hq, hne]
  have hdb : (strTruthy c.query_id || strTruthy c.query || strTruthy c.explanation ||
      strTruthy c.sample_analysis || strTruthy c.csv_url) = true := by
    simp [htr]
  constructor
  · intro f hf
    have hfq : fmt (c.query.getD "") = some f := by rw [hq]; exact hf
    simp [renderSupervisorResponse, htr, hfq]
  · intro hf
    have hfq : fmt (c.query.getD "") = none := by rw [hq]; exact hf
    simp [renderSupervisorResponse, htr, hfq]

/-- C3 witness: with a formatter that succeeds, the formatted query text
is displayed among the rendered parts. -/
theorem renderSupervisor_query_formatting_witness :
    ({ query := some "SELECT 1" } : SupervisorContent).query = some "SELECT 1" ∧
    "SELECT 1" ≠ "" ∧
    ∃ parts,
      renderSupervisorResponse (fun s => some ("FORMATTED: " ++ s))
        { query := some "SELECT 1" } = .ok parts ∧ "FORMATTED: SELECT 1" ∈ parts :=
  ⟨rfl, by decide,
    (renderSupervisor_query_formatting (fun s => some ("FORMATTED: " ++ s))
      { query := some "SELECT 1" } "SELECT 1" rfl (by decide)).1 _ rfl⟩

/-- With distinct ids and at least two threads, deleting one id leaves a
nonempty remainder. -/
lemma filter_ne_id_nonempty (l : List Conversation) (c : Int)
    (hn : (l.map (·.id)).Nodup) (hl : 2 ≤ l.length) :
    l.filter (fun x => !(x.id == c)) ≠ [] := by
  intro hemp
  have hall : ∀ x ∈ l, x.id = c := by
    intro x hx
    have := (List.filter_eq_nil_iff.mp hemp) x hx
    simpa using this
  match l, hl with
  | a :: b :: rest, _ =>
    have ha := hall a (by simp)
    have hb := hall b (by simp)
    simp [ha, hb] at hn

/-- C9: deleting a conversation thread when it is the sole remaining one
is rejected with a notice, leaving the thread list unchanged; and under
the app's unique-id invariant every delete from a nonempty thread list
leaves at least one thread. -/
theorem handleDeleteConversation_spec (st : ConversationsState) (convId : Int) :
    (st.conversations.length ≤ 1 →
      handleDeleteConversation st convId =
        some { st with notice := some "마지막 대화는 삭제할 수 없습니다" }) ∧
    ((st.conversations.map (·.id)).Nodup → st.conversations ≠ [] →
      ∃ st', handleDeleteConversation st convId = some st' ∧
        st'.conversations ≠ []) := by
  constructor
  · intro hle
    unfold handleDeleteConversation
    simp [hle]
  · intro hn hne
    by_cases hle : st.conversations.length ≤ 1
    · refine ⟨{ st with notice := some "마지막 대화는 삭제할 수 없습니다" }, ?_, ?_⟩
      · unfold handleDeleteConversation
        simp [hle]
      · simpa using hne
    · have h2 : 2 ≤ st.conversations.length := by omega
      have hfil := filter_ne_id_nonempty st.conversations convId hn h2
      unfold handleDeleteConversation
      simp only [hle, if_false]
      by_cases hact : st.activeConversation == convId
      · obtain ⟨f, rest, hfr⟩ :
            ∃ f rest, st.conversations.filter (fun c => !(c.id == convId)) = f :: rest := by
          match hh : st.conversations.filter (fun c => !(c.id == convId)) with
          | [] => exact absurd hh hfil
          | f :: rest => exact ⟨f, rest, hh⟩
        refine ⟨{ st with
            conversations := st.conversations.filter (fun c => !(c.id == convId)),
            activeConversation := f.id, sessionId := f.sessionId,
            messages := f.messages }, ?_, ?_⟩
        · simp [hact, hfr]
        · simp [hfr]
      · have hact' : (st.activeConversation == convId) = false := by
          simpa using hact
        refine ⟨{ st with
            conversations := st.conversations.filter (fun c => !(c.id == convId)) }, ?_, ?_⟩
        · simp [hact']
        · simpa using hfil

/-- C9 witness: deleting the sole thread is refused; deleting one of two
threads (distinct ids) leaves a thread. -/
theorem handleDeleteConversation_spec_witness :
    (handleDeleteConversation
        { conversations := [{ id := 1, title := "t", sessionId := "s1", messages := [] }],
          activeConversation := 1, sessionId := "s1", messages := [], notice := none } 1 =
      some { conversations := [{ id := 1, title := "t", sessionId := "s1", messages := [] }],
             activeConversation := 1, sessionId := "s1", messages := [],
             notice := some "마지막 대화는 삭제할 수 없습니다" }) ∧
    (∃ st', handleDeleteConversation
        { conversations := [{ id := 1, title := "t", sessionId := "s1", messages := [] },
                            { id := 2, title := "u", sessionId := "s2", messages := [] }],
          activeConversation := 2, sessionId := "s2", messages := [], notice := none } 2 =
      some st' ∧ st'.conversations ≠ []) :=
  ⟨(handleDeleteConversation_spec
      { conversations := [{ id := 1, title := "t", sessionId := "s1", messages := [] }],
        activeConversation := 1, sessionId := "s1", messages := [], notice := none } 1).1
      (by decide),
   (handleDeleteConversation_spec
      { conversations := [{ id := 1, title := "t", sessionId := "s1", messages := [] },
                          { id := 2, title := "u", sessionId := "s2", messages := [] }],
        activeConversation := 2, sessionId := "s2", messages := [], notice := none } 2).2
      (by decide) (by simp)⟩

/-- When the message list has no `bot-reasoning` placeholder, the
progress updater returns the previous list unchanged. -/
lemma updateReasoningMessage_no_placeholder (prev : List Message) (step : String)
    (h : ∀ m ∈ prev, m.type ≠ .botReasoning) :
    updateReasoningMessage prev step = prev := by
  unfold updateReasoningMessage
  have hnone : prev.findIdx? (fun m => m.type == MsgType.botReasoning) = none := by
    rw [List.findIdx?_eq_none_iff]
    intro m hm
    simpa using h m hm
  rw [hnone]

/-- C10: with no assistant-in-progress placeholder in the message list,
handling any non-terminal stream event leaves the message list exactly
unchanged. -/
theorem handleStreamEvent_frame (s : ChatState) (e : StreamEvent)
    (hnp : ∀ m ∈ s.messages, m.type ≠ .botReasoning)
    (hnf : e.type ≠ "final_response") :
    (handleStreamEvent s e).messages = s.messages := by
  have hupd : ∀ step, updateReasoningMessage s.messages step = s.messages :=
    fun step => updateReasoningMessage_no_placeholder s.messages step hnp
  by_cases h1 : e.type = "stream_start"
  · simp [handleStreamEvent, h1, hupd]
  · by_cases h2 : e.type = "reasoning"
    · cases hc : e.content with
      | none => simp [handleStreamEvent, h1, h2, hc]
      | some c =>
        by_cases hcz : c = "" <;> simp [handleStreamEvent, h1, h2, hc, hcz, hupd]
    · by_cases h3 : e.type = "agent_start"
      · simp [handleStreamEvent, h1, h2, h3, hupd]
      · by_cases h4 : e.type = "knowledge_base"
        · simp [handleStreamEvent, h1, h2, h3, h4, hupd]
        · by_cases h5 : e.type = "query_execution"
          · cases hq : e.query_id with
            | none => simp [handleStreamEvent, h1, h2, h3, h4, h5, hq]
            | some q =>
              by_cases hqz : q = "" <;>
                simp [handleStreamEvent, h1, h2, h3, h4, h5, hq, hqz, hupd]
          · by_cases h6 : e.type = "visualization_created"
            · cases hct : e.chart_type with
              | none => simp [handleStreamEvent, h1, h2, h3, h4, h5, h6, hct]
              | some ct =>
                by_cases hctz : ct = "" <;>
                  simp [handleStreamEvent, h1, h2, h3, h4, h5, h6, hct, hctz, hupd]
            · by_cases h7 : e.type = "error"
              · simp [handleStreamEvent, h1, h2, h3, h4, h5, h6, h7, hupd]
              · by_cases h8 : e.type = ""
                · simp [handleStreamEvent, h1, h2, h3, h4, h5, h6, h7, hnf, h8]
                · cases hm : e.message with
                  | none =>
                    simp [handleStreamEvent, h1, h2, h3, h4, h5, h6, h7, hnf, h8, hm]
                  | some m =>
                    by_cases hmz : m = "" <;>
                      simp [handleStreamEvent, h1, h2, h3, h4, h5, h6, h7, hnf, h8,
                        hm, hmz, hupd]

/-- C10 witness: a `reasoning` event against a resolved transcript (user
message and final bot answer, no placeholder) changes nothing. -/
theorem handleStreamEvent_frame_witness :
    (∀ m ∈ ([{ type := MsgType.user, content := Value.str "q" },
             { type := MsgType.bot, content := Value.str "a" }] : List Message),
        m.type ≠ .botReasoning) ∧
    "reasoning" ≠ "final_response" ∧
    (handleStreamEvent
        { messages := [{ type := .user, content := .str "q" },
                       { type := .bot, content := .str "a" }],
          currentReasoningStep := "", isProcessing := false,
          sessionId := none, outcome := none }
        { type := "reasoning", content := some "thinking\nmore" }).messages =
      [{ type := MsgType.user, content := Value.str "q" },
       { type := MsgType.bot, content := Value.str "a" }] :=
  ⟨by
    intro m hm
    simp only [List.mem_cons, List.not_mem_nil, or_false] at hm
    rcases hm with rfl | rfl <;> decide,
   by decide,
   handleStreamEvent_frame _ _
     (by
       intro m hm
       simp only [List.mem_cons, List.not_mem_nil, or_false] at hm
       rcases hm with rfl | rfl <;> decide)
     (by decide)⟩

/-- Folding the step-buffer update over any sequence of nonblank
progress lines keeps exactly the most recent five of them. -/
lemma foldl_updateSteps_eq (l : List String) (h : ∀ s ∈ l, jsTrim s ≠ "") :
    l.foldl updateSteps [] = l.drop (l.length - 5) := by
  induction l using List.reverseRecOn with
  | nil => rfl
  | append_singleton l a ih =>
    have hl : ∀ s ∈ l, jsTrim s ≠ "" := fun s hs => h s (List.mem_append_left _ hs)
    rw [List.foldl_concat, ih hl]
    unfold updateSteps
    have hfil : (l.drop (l.length - 5)).filter (fun s => !(jsTrim s == "")) =
        l.drop (l.length - 5) := by
      rw [List.filter_eq_self]
      intro x hx
      simpa using hl x (List.mem_of_mem_drop hx)
    rw [hfil]
    rw [← List.drop_append_of_le_length (by omega : l.length - 5 ≤ l.length)]
    rw [List.drop_drop]
    congr 1
    simp only [List.length_drop, List.length_append, List.length_singleton]
    omega

/-- C8: for every sequence of (single-line, nonblank) progress-line
appends of any length, the buffer holds exactly the most recently
appended at-most-five lines — never more than 5, older lines dropped. -/
theorem progress_buffer_last_five (appends : List String)
    (h : ∀ s ∈ appends, jsTrim s ≠ "") :
    appends.foldl updateSteps [] = appends.drop (appends.length - 5) ∧
    (appends.foldl updateSteps []).length ≤ 5 := by
  have main := foldl_updateSteps_eq appends h
  refine ⟨main, ?_⟩
  rw [main, List.length_drop]
  omega

/-- C8 witness: 50 synthetic progress lines leave a 5-line buffer. -/
theorem progress_buffer_last_five_witness :
    (∀ s ∈ List.replicate 50 "step", jsTrim s ≠ "") ∧
    ((List.replicate 50 "step").foldl updateSteps [] =
      (List.replicate 50 "step").drop ((List.replicate 50 "step").length - 5) ∧
     ((List.replicate 50 "step").foldl updateSteps []).length ≤ 5) := by
  have hh : ∀ s ∈ List.replicate 50 "step", jsTrim s ≠ "" := by
    intro s hs
    rw [List.eq_of_mem_replicate hs]
    decide
  exact ⟨hh, progress_buffer_last_five _ hh⟩

/-- C1: a stream carrying only `stream_start` that then closes cleanly
(no `final_response`, no throw) leaves the promise pending — neither
`resolve` nor `reject` ever runs, only `isProcessing` is reset — and the
`bot-reasoning` placeholder message is still in the list.  The
guaranteed Failure resolution the claim (and §4.4 of the spec) requires
does not exist in the code. -/
theorem streamClose_withoutFinal_leaves_pending :
    (runStream [] none "지난달 매출 알려줘" [{ type := "stream_start" }] .closed).outcome =
      none ∧
    ((runStream [] none "지난달 매출 알려줘" [{ type := "stream_start" }]
        .closed).messages.filter (fun m => m.type == .botReasoning)).length = 1 ∧
    (runStream [] none "지난달 매출 알려줘" [{ type := "stream_start" }]
        .closed).isProcessing = false := by
  refine ⟨?_, ?_, ?_⟩ <;> rfl

/-- C5: the JSON salvage parser returns every non-string input
unchanged; returns any string whose trimmed form does not start with a
brace or bracket unchanged; returns the strict parse when it succeeds;
returns the lenient (JSON5) parse of a malformed-but-recoverable string
when the strict parse fails; recovers the documented scenario input to
`{title:"X", values:[1,2]}`; and when all three attempts fail returns
the original string unchanged — total, never null. -/
theorem parseJsonContent_spec (repairFn : String → Option String) :
    (∀ v : Value, (∀ s, v ≠ .str s) → parseJsonContent repairFn v = v) ∧
    (∀ s : String, looksLikeJson (jsTrim s) = false →
      parseJsonContent repairFn (.str s) = .str s) ∧
    (∀ s v, looksLikeJson (jsTrim s) = true → jsonStrictParse (jsTrim s) = some v →
      parseJsonContent repairFn (.str s) = v) ∧
    (∀ s v, looksLikeJson (jsTrim s) = true → jsonStrictParse (jsTrim s) = none →
      json5Parse (jsTrim s) = some v → parseJsonContent repairFn (.str s) = v) ∧
    (parseJsonContent repairFn (.str "\x7btitle: 'X', values: [1,2,]\x7d") =
      .obj [("title", .str "X"), ("values", .arr [.num 1, .num 2])]) ∧
    (∀ s, jsonStrictParse (jsTrim s) = none → json5Parse (jsTrim s) = none →
      (∀ r, repairFn (jsTrim s) = some r → jsonStrictParse r = none) →
      parseJsonContent repairFn (.str s) = .str s) := by
  refine ⟨?_, ?_, ?_, ?_, by rfl, ?_⟩
  · intro v h
    cases v <;> first | rfl | exact absurd rfl (h _)
  · intro s h
    simp [parseJsonContent, h]
  · intro s v h1 h2
    simp [parseJsonContent, h1, h2]
  · intro s v h1 h2 h3
    simp [parseJsonContent, h1, h2, h3]
  · intro s h2 h3 h4
    by_cases hlj : looksLikeJson (jsTrim s) = true
    · simp only [parseJsonContent, hlj, Bool.not_true, Bool.false_eq_true, if_false, h2, h3]
      cases hr : repairFn (jsTrim s) with
      | none => rfl
      | some r => simp [h4 r hr]
    · have h : looksLikeJson (jsTrim s) = false := by simpa using hlj
      simp [parseJsonContent, h]

/-- C5 witness: a number passes through; prose passes through; strict
JSON parses strictly; `[1,]` is salvaged leniently; the scenario string
is salvaged to the intended document; an unrecoverable string survives
unchanged. -/
theorem parseJsonContent_spec_witness :
    parseJsonContent (fun _ => none) (Value.num 7) = Value.num 7 ∧
    parseJsonContent (fun _ => none) (Value.str "hello") = Value.str "hello" ∧
    parseJsonContent (fun _ => none) (Value.str " [1, 2] ") =
      Value.arr [Value.num 1, Value.num 2] ∧
    parseJsonContent (fun _ => none) (Value.str "[1,]") = Value.arr [Value.num 1] ∧
    parseJsonContent (fun _ => none) (Value.str "\x7btitle: 'X', values: [1,2,]\x7d") =
      Value.obj [("title", Value.str "X"), ("values", Value.arr [Value.num 1, Value.num 2])] ∧
    parseJsonContent (fun _ => none) (Value.str "\x7bnope") = Value.str "\x7bnope" := by
  obtain ⟨w1, w2, w3, w4, w5, w6⟩ := parseJsonContent_spec (fun _ => none)
  exact ⟨w1 _ (fun s h => Value.noConfusion h), w2 "hello" (by rfl),
    w3 " [1, 2] " _ (by rfl) (by rfl), w4 "[1,]" _ (by rfl) (by rfl) (by rfl),
    w5, w6 "\x7bnope" (by rfl) (by rfl) (fun r hr => Option.noConfusion hr)⟩

/-! #### Embed-cache helper lemmas -/

/-- A cache miss means no entry carries the key. -/
lemma lookup_none_iff_no_key (cache : List (String × IframeEntry)) (u : String) :
    cache.lookup u = none ↔ ∀ kv ∈ cache, kv.1 ≠ u := by
  induction cache with
  | nil => simp
  | cons p rest ih =>
    obtain ⟨k, e⟩ := p
    rw [List.lookup_cons]
    cases hk : u == k with
    | true =>
      have hku : k = u := by
        have : u = k := by simpa using hk
        exact this.symm
      simp [hku]
    | false =>
      have hku : k ≠ u := by
        intro h
        subst h
        simp at hk
      simp [ih, hku]

/-- When no entry carries the key, its key count is zero. -/
lemma countKey_eq_zero_of_no_key (cache : List (String × IframeEntry)) (u : String)
    (h : ∀ kv ∈ cache, kv.1 ≠ u) : countKey cache u = 0 := by
  simp only [countKey, List.length_eq_zero, List.filter_eq_nil_iff]
  intro kv hkv
  simpa using h kv hkv

/-- Key counts add over concatenation. -/
lemma countKey_append (a b : List (String × IframeEntry)) (u : String) :
    countKey (a ++ b) u = countKey a u + countKey b u := by
  simp [countKey, List.filter_append]

/-- Helper `hideEntry` keeps the key. -/
lemma hideEntry_fst (kv : String × IframeEntry) : (hideEntry kv).1 = kv.1 := by
  unfold hideEntry
  split <;> rfl

/-- Helper `showEntry` keeps the key. -/
lemma showEntry_fst (u : String) (kv : String × IframeEntry) :
    (showEntry u kv).1 = kv.1 := by
  unfold showEntry
  split <;> simp_all

/-- A key-preserving map keeps key counts. -/
lemma countKey_map_fst_preserving (f : String × IframeEntry → String × IframeEntry)
    (hf : ∀ kv, (f kv).1 = kv.1) (cache : List (String × IframeEntry)) (u : String) :
    countKey (cache.map f) u = countKey cache u := by
  induction cache with
  | nil => rfl
  | cons p rest ih =>
    simp only [List.map_cons, countKey, List.filter_cons, hf p]
    split <;> simp_all [countKey]

/-- A key-preserving map keeps the key list. -/
lemma keys_map_fst_preserving (f : String × IframeEntry → String × IframeEntry)
    (hf : ∀ kv, (f kv).1 = kv.1) (cache : List (String × IframeEntry)) :
    (cache.map f).map (·.1) = cache.map (·.1) := by
  rw [List.map_map]
  exact List.map_congr_left (fun kv _ => hf kv)

/-- Distinct keys bound every key count by one. -/
lemma countKey_le_one_of_nodup (cache : List (String × IframeEntry))
    (hn : (cache.map (·.1)).Nodup) (u : String) : countKey cache u ≤ 1 := by
  induction cache with
  | nil => simp [countKey]
  | cons p rest ih =>
    simp only [List.map_cons, List.nodup_cons] at hn
    obtain ⟨hnot, hrest⟩ := hn
    by_cases h : (p.1 == u) = true
    · have hu : p.1 = u := by simpa using h
      have hz : countKey rest u = 0 := by
        apply countKey_eq_zero_of_no_key
        intro kv hkv heq
        apply hnot
        rw [hu]
        exact List.mem_map.mpr ⟨kv, hkv, heq⟩
      simp only [countKey, List.filter_cons, h, if_true, List.length_cons]
      simp only [countKey] at hz
      omega
    · have h' : (p.1 == u) = false := by simpa using h
      simp only [countKey, List.filter_cons, h']
      simpa [countKey] using ih hrest

/-- After hiding the container children, every entry that the invariant
covers is invisible. -/
lemma hideEntry_invisible (kv : String × IframeEntry)
    (h : kv.2.visible = true → kv.2.inContainer = true) :
    (hideEntry kv).2.visible = false := by
  unfold hideEntry
  by_cases hin : kv.2.inContainer = true
  · simp [hin]
  · cases hv : kv.2.visible with
    | false => simp [hin, hv]
    | true => exact absurd (h hv) hin

/-- All entries are invisible after the hide pass (given the
visible-implies-in-container invariant). -/
lemma all_invisible_after_hide (cache : List (String × IframeEntry))
    (h : ∀ kv ∈ cache, kv.2.visible = true → kv.2.inContainer = true) :
    ∀ kv ∈ cache.map hideEntry, kv.2.visible = false := by
  intro kv hkv
  obtain ⟨kv', h', rfl⟩ := List.mem_map.mp hkv
  exact hideEntry_invisible kv' (h kv' h')

/-- No invisible entry survives the visibility filter. -/
lemma visible_filter_nil (cache : List (String × IframeEntry))
    (h : ∀ kv ∈ cache, kv.2.visible = false) :
    cache.filter (fun kv => kv.2.visible) = [] := by
  rw [List.filter_eq_nil_iff]
  intro kv hkv
  simp [h kv hkv]

/-- Displaying the entries keyed `u` over an all-invisible cache leaves
exactly the entries keyed `u` visible. -/
lemma visible_count_after_show (cache : List (String × IframeEntry)) (u : String)
    (h : ∀ kv ∈ cache, kv.2.visible = false) :
    ((cache.map (showEntry u)).filter (fun kv => kv.2.visible)).length =
      countKey cache u := by
  induction cache with
  | nil => rfl
  | cons p rest ih =>
    have hp := h p (by simp)
    have hrest : ∀ kv ∈ rest, kv.2.visible = false := fun kv hkv => h kv (by simp [hkv])
    by_cases hk : (p.1 == u) = true
    · simp only [List.map_cons, showEntry, hk, if_true, List.filter_cons, countKey]
      simp [ih hrest, countKey, hk]
    · have hk' : (p.1 == u) = false := by simpa using hk
      simp only [List.map_cons, showEntry, hk', Bool.false_eq_true, if_false,
        List.filter_cons, countKey]
      simp [hp, ih hrest, countKey, hk']

/-- The embed invariant depends on the cache only. -/
lemma embedInv_of_cache_eq {s s' : EmbedState} (h : s'.cache = s.cache)
    (hi : embedInv s) : embedInv s' := by
  unfold embedInv visibleCount at hi ⊢
  rw [h]
  exact hi

/-- Hiding everything preserves the invariant. -/
lemma embedInv_hideAllIframes (s : EmbedState) (hi : embedInv s) :
    embedInv (hideAllIframes s) := by
  obtain ⟨hk, hv, _⟩ := hi
  unfold embedInv hideAllIframes visibleCount
  refine ⟨?_, ?_, ?_⟩
  · rw [keys_map_fst_preserving hideEntry hideEntry_fst]
    exact hk
  · intro kv hkv hvis
    have h0 := all_invisible_after_hide s.cache hv kv hkv
    rw [h0] at hvis
    cases hvis
  · rw [visible_filter_nil _ (all_invisible_after_hide s.cache hv)]
    simp

/-- The state produced by the display pass of `showIframe` satisfies the
invariant whenever the cache it starts from has distinct keys and only
invisible entries. -/
lemma embedInv_of_show_cache (s : EmbedState) (u : String)
    (cache2 : List (String × IframeEntry))
    (hk2 : (cache2.map (·.1)).Nodup) (hv2 : ∀ kv ∈ cache2, kv.2.visible = false) :
    embedInv { s with cache := cache2.map (showEntry u), activeUrl := some u } := by
  unfold embedInv visibleCount
  refine ⟨?_, ?_, ?_⟩
  · rw [keys_map_fst_preserving _ (showEntry_fst u)]
    exact hk2
  · intro kv hkv hvis
    obtain ⟨kv', h', rfl⟩ := List.mem_map.mp hkv
    by_cases hku : (kv'.1 == u) = true
    · simp [showEntry, hku]
    · have hinvz := hv2 kv' h'
      simp [showEntry, hku, hinvz] at hvis
  · rw [visible_count_after_show cache2 u hv2]
    exact countKey_le_one_of_nodup cache2 hk2 u

/-- Function `showIframe` preserves the invariant. -/
lemma embedInv_showIframe (s : EmbedState) (u t : String) (hi : embedInv s) :
    embedInv (showIframe s u t) := by
  unfold showIframe
  by_cases hu : (u == "") = true
  · rw [if_pos hu]
    exact hi
  · have hu' : (u == "") = false := by simpa using hu
    simp only [hu', Bool.false_eq_true, if_false]
    obtain ⟨hk, hv, hc⟩ := hi
    have hinv1 : ∀ kv ∈ s.cache.map hideEntry, kv.2.visible = false :=
      all_invisible_after_hide s.cache hv
    have hkeys1 : (s.cache.map hideEntry).map (·.1) = s.cache.map (·.1) :=
      keys_map_fst_preserving _ hideEntry_fst _
    cases hlk : (s.cache.map hideEntry).lookup u with
    | some e =>
      have hgc : getOrCreateIframe (s.cache.map hideEntry) u t = s.cache.map hideEntry := by
        unfold getOrCreateIframe
        rw [hlk]
        rfl
      rw [hgc]
      exact embedInv_of_show_cache s u _ (by rw [hkeys1]; exact hk) hinv1
    | none =>
      have hfr1 := (lookup_none_iff_no_key _ u).mp hlk
      have hgc : getOrCreateIframe (s.cache.map hideEntry) u t =
          s.cache.map hideEntry ++
            [(u, { title := if t == "" then "QuickSight Dashboard" else t,
                   visible := false, inContainer := false })] := by
        unfold getOrCreateIframe
        rw [hlk]
        rfl
      rw [hgc]
      apply embedInv_of_show_cache
      · rw [List.map_append, List.nodup_append]
        refine ⟨by rw [hkeys1]; exact hk, by simp, ?_⟩
        intro a ha hb
        simp only [List.map_cons, List.map_nil, List.mem_singleton] at hb
        subst hb
        obtain ⟨kv, hkv, rfl⟩ := List.mem_map.mp ha
        exact hfr1 kv hkv rfl
      · intro kv hkv
        rcases List.mem_append.mp hkv with h' | h'
        · exact hinv1 kv h'
        · simp only [List.mem_singleton] at h'
          subst h'
          rfl

/-- Function `handleOpenChart` preserves the invariant. -/
lemma embedInv_handleOpenChart (s : EmbedState) (url : String) (title : Option String)
    (parsed : Option URLParts) (current : URLParts) (hi : embedInv s) :
    embedInv (handleOpenChart s url title parsed current) := by
  unfold handleOpenChart
  by_cases hu : (url == "") = true
  · rw [if_pos hu]
    exact hi
  · have hu' : (url == "") = false := by simpa using hu
    simp only [hu', Bool.false_eq_true, if_false]
    by_cases hv : (!(isValidUrl parsed current)) = true
    · rw [if_pos hv]
      exact embedInv_of_cache_eq rfl hi
    · simp only [hv, Bool.false_eq_true, if_false]
      by_cases ho : alreadyOpen s url = true
      · rw [if_pos ho]
        exact embedInv_of_cache_eq rfl hi
      · simp only [ho, Bool.false_eq_true, if_false]
        exact embedInv_showIframe _ url _ (embedInv_of_cache_eq rfl hi)

/-- The invariant holds at application start. -/
lemma embedInv_initialEmbedState : embedInv initialEmbedState := by
  refine ⟨?_, ?_, ?_⟩ <;> simp [initialEmbedState, visibleCount]

/-- Every op sequence preserves the invariant. -/
lemma embedInv_runEmbedOps (current : URLParts) (ops : List EmbedOp) :
    ∀ s, embedInv s → embedInv (runEmbedOps current s ops) := by
  induction ops with
  | nil => intro s hi; exact hi
  | cons op rest ih =>
    intro s hi
    unfold runEmbedOps at ih ⊢
    rw [List.foldl_cons]
    cases op with
    | showOp url title parsed =>
      exact ih _ (embedInv_handleOpenChart s url title parsed current hi)
    | hideOp =>
      exact ih _ (embedInv_hideAllIframes s hi)

/-- Function `showIframe` only rewires the cache and the active URL. -/
lemma showIframe_currentVis (s : EmbedState) (u t : String) :
    (showIframe s u t).currentVis = s.currentVis := by
  unfold showIframe
  split <;> rfl

/-- Function `showIframe` leaves `showVisualization` untouched. -/
lemma showIframe_showVis (s : EmbedState) (u t : String) :
    (showIframe s u t).showVis = s.showVis := by
  unfold showIframe
  split <;> rfl

/-- Showing a URL that is not yet cached creates exactly one entry for
it and leaves exactly one iframe visible. -/
lemma showIframe_fresh_facts (s : EmbedState) (u t : String) (hu : (u == "") = false)
    (hfr : ∀ kv ∈ s.cache, kv.1 ≠ u)
    (hv : ∀ kv ∈ s.cache, kv.2.visible = true → kv.2.inContainer = true) :
    countKey (showIframe s u t).cache u = 1 ∧
    visibleCount (showIframe s u t) = 1 := by
  unfold showIframe
  simp only [hu, Bool.false_eq_true, if_false]
  have hfr1 : ∀ kv ∈ s.cache.map hideEntry, kv.1 ≠ u := by
    intro kv hkv
    obtain ⟨kv', h', rfl⟩ := List.mem_map.mp hkv
    rw [hideEntry_fst]
    exact hfr kv' h'
  have hlk : (s.cache.map hideEntry).lookup u = none :=
    (lookup_none_iff_no_key _ u).mpr hfr1
  have hgc : getOrCreateIframe (s.cache.map hideEntry) u t =
      s.cache.map hideEntry ++
        [(u, { title := if t == "" then "QuickSight Dashboard" else t,
               visible := false, inContainer := false })] := by
    unfold getOrCreateIframe
    rw [hlk]
    rfl
  rw [hgc]
  have hv2 : ∀ kv ∈ s.cache.map hideEntry ++
      [(u, { title := if t == "" then "QuickSight Dashboard" else t,
             visible := false, inContainer := false })], kv.2.visible = false := by
    intro kv hkv
    rcases List.mem_append.mp hkv with h' | h'
    · exact all_invisible_after_hide s.cache hv kv h'
    · simp only [List.mem_singleton] at h'
      subst h'
      rfl
  constructor
  · show countKey (List.map (showEntry u) _) u = 1
    rw [countKey_map_fst_preserving _ (showEntry_fst u), countKey_append,
      countKey_eq_zero_of_no_key _ _ hfr1]
    simp [countKey]
  · show visibleCount _ = 1
    unfold visibleCount
    rw [show ({ s with
        cache := List.map (showEntry u) (s.cache.map hideEntry ++
          [(u, { title := if t == "" then "QuickSight Dashboard" else t,
                 visible := false, inContainer := false })]),
        activeUrl := some u } : EmbedState).cache = List.map (showEntry u)
          (s.cache.map hideEntry ++
            [(u, { title := if t == "" then "QuickSight Dashboard" else t,
                   visible := false, inContainer := false })]) from rfl]
    rw [visible_count_after_show _ u hv2, countKey_append,
      countKey_eq_zero_of_no_key _ _ hfr1]
    simp [countKey]

/-- C6: from any invariant-satisfying state in which `u` is not yet
cached and not the active visualization, showing `u` twice in a row
creates exactly one cache entry for it, leaves exactly one visible
iframe, and the second call is a notice-only no-op (already-open signal,
no reload); moreover after any show/hide sequence from startup at most
one cached iframe is visible. -/
theorem embedCache_show_once_semantics (s : EmbedState) (u : String)
    (parsed : Option URLParts) (current : URLParts)
    (hinv : embedInv s) (hfresh : s.cache.lookup u = none)
    (hopen : alreadyOpen s u = false) (hvalid : isValidUrl parsed current = true)
    (hurl : u ≠ "") :
    countKey (handleOpenChart s u none parsed current).cache u = 1 ∧
    visibleCount (handleOpenChart s u none parsed current) = 1 ∧
    handleOpenChart (handleOpenChart s u none parsed current) u none parsed current =
      { handleOpenChart s u none parsed current with
        notice := some "이미 동일한 차트가 열려있습니다." } ∧
    ∀ ops : List EmbedOp, visibleCount (runEmbedOps current initialEmbedState ops) ≤ 1 := by
  have hub : (u == "") = false := by simpa using hurl
  have hvd : (!(isValidUrl parsed current)) = false := by simp [hvalid]
  have hs1 : handleOpenChart s u none parsed current =
      showIframe { s with currentVis := some (u, "QuickSight Dashboard"), showVis := true }
        u "QuickSight Dashboard" := by
    unfold handleOpenChart
    simp only [hub, Bool.false_eq_true, if_false, hvd, hopen, msgOr]
  have hfr : ∀ kv ∈ s.cache, kv.1 ≠ u := (lookup_none_iff_no_key s.cache u).mp hfresh
  have hfacts := showIframe_fresh_facts
    { s with currentVis := some (u, "QuickSight Dashboard"), showVis := true }
    u "QuickSight Dashboard" hub hfr hinv.2.1
  refine ⟨?_, ?_, ?_, ?_⟩
  · rw [hs1]
    exact hfacts.1
  · rw [hs1]
    exact hfacts.2
  · rw [hs1]
    have hao : alreadyOpen (showIframe
        { s with currentVis := some (u, "QuickSight Dashboard"), showVis := true }
        u "QuickSight Dashboard") u = true := by
      unfold alreadyOpen
      rw [showIframe_currentVis, showIframe_showVis]
      simp
    unfold handleOpenChart
    simp only [hub, Bool.false_eq_true, if_false, hvd, hao, if_true]
  · intro ops
    exact (embedInv_runEmbedOps current ops initialEmbedState embedInv_initialEmbedState).2.2

/-- C6 witness: showing a fresh dashboard URL twice from startup. -/
theorem embedCache_show_once_semantics_witness :
    countKey (handleOpenChart initialEmbedState "https://qs.example/dash" none
        (some { protocol := "https:", origin := "https://qs.example", pathname := "/dash" })
        { protocol := "http:", origin := "http://localhost:3000", pathname := "/" }).cache
      "https://qs.example/dash" = 1 ∧
    visibleCount (handleOpenChart initialEmbedState "https://qs.example/dash" none
        (some { protocol := "https:", origin := "https://qs.example", pathname := "/dash" })
        { protocol := "http:", origin := "http://localhost:3000", pathname := "/" }) = 1 ∧
    handleOpenChart (handleOpenChart initialEmbedState "https://qs.example/dash" none
        (some { protocol := "https:", origin := "https://qs.example", pathname := "/dash" })
        { protocol := "http:", origin := "http://localhost:3000", pathname := "/" })
      "https://qs.example/dash" none
      (some { protocol := "https:", origin := "https://qs.example", pathname := "/dash" })
      { protocol := "http:", origin := "http://localhost:3000", pathname := "/" } =
      { handleOpenChart initialEmbedState "https://qs.example/dash" none
          (some { protocol := "https:", origin := "https://qs.example", pathname := "/dash" })
          { protocol := "http:", origin := "http://localhost:3000", pathname := "/" } with
        notice := some "이미 동일한 차트가 열려있습니다." } ∧
    visibleCount (runEmbedOps
      { protocol := "http:", origin := "http://localhost:3000", pathname := "/" }
      initialEmbedState
      [.showOp "https://qs.example/dash" none
        (some { protocol := "https:", origin := "https://qs.example", pathname := "/dash" }),
       .showOp "https://qs.example/dash" none
        (some { protocol := "https:", origin := "https://qs.example", pathname := "/dash" }),
       .hideOp]) ≤ 1 := by
  have h := embedCache_show_once_semantics initialEmbedState "https://qs.example/dash"
    (some { protocol := "https:", origin := "https://qs.example", pathname := "/dash" })
    { protocol := "http:", origin := "http://localhost:3000", pathname := "/" }
    embedInv_initialEmbedState (by rfl) (by rfl) (by rfl) (by decide)
  exact ⟨h.1, h.2.1, h.2.2.1, h.2.2.2 _⟩

end KickSight
